import Mathlib

/- Verification of the `ogma` table-expression library, shallowly embedding the
   surface module `src/ogma/src/lib.rs`: the help/error model (`help_as_error`),
   the parse dispatcher (`parse`), the entry point (`process_expression`), table
   printing (`print_table`, `fmt_row`), and the filesystem-backed content cache
   (`fscache::FsCache`).

   Modelling conventions:
   - Rust strings (`str`, `String`, `Str`) and `Path`s are modelled as `List Char`
     (abbreviated `Chars`); a `Path` is identified with its `display()` string.
   - `std::time::Instant` is a `Nat` tick; `Duration`s are `Nat` ticks.  The
     methods that read the clock (`Instant::now`) take the current tick `now`
     explicitly.
   - The cache's `HashMap` behind its `Mutex` is modelled as an explicit state
     `CacheMap` passed in and out of each operation; `Mutex` locking only makes
     each operation atomic and has no sequential content.
   - Fallible Rust code returns `Option`/`Except`; a Rust `panic!`/`expect` is a
     `none`/`Outcome.panicked` result, never a Lean error. -/

abbrev Chars := List Char

-- ###### AST / ERROR MODEL ####################################################

/-- Modelled from the spec: the `ast` module is outside `src/`.  Locations are
"shell input, or file + line/column, or a location inside an expanded user
definition"; `parse` and `process_expression` only ever construct
`Location.Shell` here. -/
inductive Location where
  | Shell
  | File (path : Chars) (line : Nat)
  | Ogma (defName : Chars) (line : Nat)
deriving DecidableEq

/-- Modelled from the spec: the `err` module is outside `src/`.  Error
categories "(Help, Parse, Resolve, Evaluate, ...)". -/
inductive Category where
  | Help
  | Parse
  | Resolve
  | Evaluate
deriving DecidableEq

/-- `struct ErrorTrace` (lib.rs:127-134): location, source snippet, optional
pointed-at description, byte span start and length.  Its `Default` (derived in
the `err` module, outside `src/`) is modelled as the all-empty trace with
`Location::Shell`. -/
structure ErrorTrace where
  loc : Location
  source : Chars
  desc : Option Chars
  start : Nat
  len : Nat
deriving DecidableEq

/-- `struct Error` (lib.rs:119-125). -/
structure Error where
  cat : Category
  desc : Chars
  traces : List ErrorTrace
  help_msg : Option Chars
deriving DecidableEq

-- ###### HELP MODEL ###########################################################

/-- `struct HelpExample` (lib.rs:102-106). -/
structure HelpExample where
  desc : Chars
  code : Chars
deriving DecidableEq

/-- `enum HelpParameter` (lib.rs:82-89). -/
inductive HelpParameter where
  | Required (p : Chars)
  | Optional (p : Chars)
  | Custom (p : Chars)
  | Break
deriving DecidableEq

/-- `struct HelpMessage` (lib.rs:52-61); `flags` are (flag-name, description)
pairs. -/
structure HelpMessage where
  cmd : Chars
  desc : Chars
  params : List HelpParameter
  no_space : Bool
  flags : List (Chars × Chars)
  examples : List HelpExample
deriving DecidableEq

/-- `HelpParameter::write` (lib.rs:91-100).  The `Break` arm is
`panic!("`write` should not be called on HelpParameter::Break")`, modelled as
`none`; the other arms append text to the writer, modelled by returning the
appended text. -/
def HelpParameter.write : HelpParameter → Option Chars
  | .Required p => some p
  | .Custom p => some p
  | .Optional p => some ("[".data ++ p ++ "]".data)
  | .Break => none

/-- One iteration of the `for param in &msg.params` loop of `help_as_error`
(lib.rs:142-153), threading the panic-possibility of `HelpParameter::write`
through `Option`.  In source order: a `Break` first emits a fresh usage line,
then (unless `no_space`) a space is pushed, then a non-`Break` parameter is
written. -/
def paramStep (cmd : Chars) (no_space : Bool) (acc : Option Chars) (param : HelpParameter) :
    Option Chars :=
  match acc with
  | none => none
  | some source =>
    let brk : Bool := match param with | .Break => true | _ => false
    let source := if brk then source ++ "\n => ".data ++ cmd else source
    let source := if !no_space then source ++ " ".data else source
    if brk then some source else (param.write).map (fun w => source ++ w)

/-- `help_as_error` (lib.rs:136-181).  Builds the single-trace Help error; the
flags and examples loops (`push_str`/`write!` onto `source`) are the two
`foldl`s.  `none` models a panic (which would require `HelpParameter::write` on
a `Break`, unreachable from this function). -/
def help_as_error (msg : HelpMessage) : Option Error :=
  let cmd := msg.cmd
  let source := msg.desc ++ "\n\nUsage:\n => ".data ++ cmd
  (msg.params.foldl (paramStep cmd msg.no_space) (some source)).map fun source =>
    let source := if msg.flags.isEmpty then source else
      msg.flags.foldl (fun acc nd => acc ++ "\n --".data ++ nd.1 ++ ": ".data ++ nd.2)
        (source ++ "\n\nFlags:".data)
    let source := if msg.examples.isEmpty then source else
      msg.examples.foldl
        (fun acc ex => acc ++ "\n ".data ++ ex.desc ++ "\n => ".data ++ ex.code ++ "\n".data)
        (source ++ "\n\nExamples:".data)
    { cat := Category.Help
      desc := "`".data ++ cmd ++ "`".data
      help_msg := none
      traces := [{ loc := Location.Shell, source := source, desc := none, start := 0, len := 0 }] }

-- ###### CACHE MODEL ##########################################################

/-- Modelled from the spec: the `types` module is outside `src/`.  Type
descriptors for the closed value model "`Nil`, `Num`, `Bool`, `Str`, `Table`,
`TableRow`, `Record`"; records (`def-ty` types) carry their declared name. -/
inductive Ty where
  | Nil
  | Num
  | Bool
  | Str
  | Tab
  | TabRow
  | Def (name : Chars)
deriving DecidableEq

/-- `struct Key(String, Type)` (lib.rs:400-401): a normalized path string paired
with the requested materialization type. -/
structure Key where
  path : Chars
  ty : Ty
deriving DecidableEq

/-- `path_to_str` (lib.rs:478-480): `path.display().to_string().to_lowercase()`.
With paths identified with their display strings this is character-wise
lowercasing. -/
def path_to_str (path : Chars) : Chars := path.map Char.toLower

/-- The Rust generic bounds `T: AsType + Into<Value> + TryFrom<Value>` bundled
as data, for a cache storing values of type `V` (`crate::types::Value`, whose
module is outside `src/`): the type descriptor `T::as_type()`, the conversion
into a stored value, and the fallible conversion back (`try_from(..).ok()`). -/
structure Materialize (V : Type) (α : Type) where
  ty : Ty
  intoValue : α → V
  tryFromValue : V → Option α

/-- `Key::from::<T>` (lib.rs:410-414). -/
def Key.fromPath {V α : Type} (M : Materialize V α) (path : Chars) : Key :=
  ⟨path_to_str path, M.ty⟩

/-- The cache's `Map = HashMap<Key, (Instant, Value)>` (lib.rs:402-403),
modelled extensionally. -/
def CacheMap (V : Type) := Key → Option (Nat × V)

/-- `HashMap::insert`: the new binding replaces any previous one at the key. -/
def CacheMap.insert {V : Type} (m : CacheMap V) (k : Key) (v : Nat × V) : CacheMap V :=
  fun k' => if k' = k then some v else m k'

/-- `HashMap::retain`: keep exactly the bindings satisfying the predicate. -/
def CacheMap.retain {V : Type} (m : CacheMap V) (p : Key → Nat × V → Bool) : CacheMap V :=
  fun k =>
    match m k with
    | some v => if p k v then some v else none
    | none => none

/-- `FsCache::get` (lib.rs:419-434).  The initial `thread::sleep(DEBOUNCE * 5)`
only delays in real time and does not touch the map.  On a hit the entry's
timestamp is bumped to `Instant::now()` (the `now` argument), the stored value
is cloned and converted with `T::try_from(..).ok()`; on a miss the map is
untouched.  Returns the converted value together with the updated map. -/
def FsCache.get {V α : Type} (M : Materialize V α) (path : Chars) (m : CacheMap V)
    (now : Nat) : Option α × CacheMap V :=
  let key := Key.fromPath M path
  match m key with
  | none => (none, m)
  | some x => (M.tryFromValue x.2, m.insert key (now, x.2))

/-- `FsCache::insert` (lib.rs:436-443): store `(Instant::now(), value.into())`
under `Key::from::<T>(path)`. -/
def FsCache.insert {V α : Type} (M : Materialize V α) (path : Chars) (value : α)
    (m : CacheMap V) (now : Nat) : CacheMap V :=
  m.insert (Key.fromPath M path) (now, M.intoValue value)

/-- `FsCache::remove_expired` (lib.rs:445-447): retain entries with
`v.0.elapsed() < age`; `elapsed` is `now - timestamp` (saturating, as `Instant`
is monotone). -/
def FsCache.remove_expired {V : Type} (age : Nat) (m : CacheMap V) (now : Nat) : CacheMap V :=
  m.retain (fun _ v => decide (now - v.1 < age))

/-- `FsCache::remove_path_changes` (lib.rs:449-458): normalize the incoming
paths with `path_to_str`, and if any, retain only the entries whose key path is
not among them — irrespective of the key's type component. -/
def FsCache.remove_path_changes {V : Type} (paths : List Chars) (m : CacheMap V) : CacheMap V :=
  let ps := paths.map path_to_str
  if ps.isEmpty then m else m.retain (fun k _ => !ps.contains k.path)

-- ###### PRINTING MODEL #######################################################

/-- `ROWS_LIM` (lib.rs:249). -/
def ROWS_LIM : Nat := 30

/-- `COLS_LIM` (lib.rs:250). -/
def COLS_LIM : Nat := 7

/-- The `::table::DataTable` container, from the spec (the `table` crate is
outside `src/`): "an ordered grid of `Entry` cells ...; a boolean flag marks
whether the first row is a header", with O(1) `rows_len`/`cols_len`.  The cell
type is kept abstract; uniform row length ("every row has the same cell count")
is the container invariant, assumed as a hypothesis where needed. -/
structure DataTable (Cell : Type) where
  cols : Nat
  cells : List (List Cell)
  header : Bool

/-- `Table::rows_len`: total number of rows, the header row included. -/
def DataTable.rows_len {Cell : Type} (t : DataTable Cell) : Nat := t.cells.length

/-- `Table::cols_len`. -/
def DataTable.cols_len {Cell : Type} (t : DataTable Cell) : Nat := t.cols

/-- Modelled from the spec: `Table::is_empty` (the `table` crate is outside
`src/`) — the table holds no rows at all. -/
def DataTable.is_empty {Cell : Type} (t : DataTable Cell) : Bool := t.cells.isEmpty

/-- What `print_table` hands to the terminal, stripped of colour and box-drawing
style (`comfy_table` presets are excluded presentation plumbing): either the
single "table is empty" message line, or a grid with an optional header row and
the data rows, each row a list of formatted cells. -/
inductive Printed where
  | msg (line : Chars)
  | grid (header : Option (List Chars)) (rows : List (List Chars))
deriving DecidableEq

/-- `fmt_row` (lib.rs:325-357).  `fmtCell` stands for `fmt_cell` applied with
the threaded `numfmt::Formatter` (an external crate; its state only affects the
text of individual cells, not which cells are rendered).  When `limit_col`,
take the first 3 cells, emit one marker cell ("N cols elided" in a header row,
"..." otherwise), then skip `cols_len - 6` and render the rest. -/
def fmt_row {Cell : Type} (row : List Cell) (limit_col : Bool) (cols_len : Nat)
    (fmtCell : Cell → Chars) (header : Bool) : List Chars :=
  let tk := if limit_col then 3 else cols_len
  let sk := if limit_col then cols_len - 6 else 0
  let cols := (row.take tk).map fmtCell
  if limit_col then
    cols
      ++ (if header then (Nat.repr (cols_len - 6)).data ++ " cols elided".data else "...".data)
        :: ((row.drop tk).drop sk).map fmtCell
  else cols

/-- `print_table` (lib.rs:254-317).  An empty table short-circuits to the
"table is empty" message.  Otherwise: when the header flag is set the first row
is consumed as the header; when `rows_len > ROWS_LIM` the body is the first 5
remaining rows, one marker row (`"N rows elided"` then `"..."` filler cells),
and the rows after skipping `rows_len - 11`.  `fmtHeader`/`fmtCell` stand for
`fmt_cell` with the two `Formatter`s (`header_fmtr`, `cell_fmtr`). -/
def print_table {Cell : Type} (t : DataTable Cell) (fmtHeader fmtCell : Cell → Chars) : Printed :=
  if t.is_empty then .msg "table is empty".data
  else
    let limit_col : Bool := decide (t.cols_len > COLS_LIM)
    let limit_row : Bool := decide (t.rows_len > ROWS_LIM)
    let header : Option (List Chars) :=
      if t.header then t.cells.head?.map (fun h => fmt_row h limit_col t.cols_len fmtHeader true)
      else none
    let rows := if t.header then t.cells.tail else t.cells
    let tk := if limit_row then 5 else t.rows_len
    let sk := if limit_row then t.rows_len - 11 else 0
    let body := (rows.take tk).map (fun r => fmt_row r limit_col t.cols_len fmtCell false)
    if limit_row then
      let marker : List Chars :=
        ((Nat.repr (t.rows_len - 10 - if t.header then 1 else 0)).data ++ " rows elided".data)
          :: List.replicate (if limit_col then 6 else t.cols_len - 1) "...".data
      .grid header
        (body ++ marker
          :: ((rows.drop tk).drop sk).map (fun r => fmt_row r limit_col t.cols_len fmtCell false))
    else .grid header body

-- ###### PARSE MODEL ##########################################################

/-- `enum ParseSuccess` (lib.rs:184-192), generic over the three AST node types
(their modules are outside `src/`). -/
inductive ParseSuccess (DefImpl DefTy Expr : Type) where
  | Impl (d : DefImpl)
  | Ty (t : DefTy)
  | Expr (e : Expr)

/-- `parse` (lib.rs:197-206).  The three token-level parsers
(`parsing::definition_impl`, `parsing::definition_type`,
`parsing::expression`; the `parsing` module is outside `src/`) are passed as
parameters with the argument shapes the source calls them with.  Dispatch is on
a leading `"def "` / `"def-ty "` keyword, always at `Location::Shell`. -/
def parse {Defs DefImpl DefTy Expr ParseFailT : Type}
    (definition_impl : Chars → Location → Defs → Except ParseFailT DefImpl)
    (definition_type : Chars → Location → Except ParseFailT DefTy)
    (expression : Chars → Location → Defs → Except ParseFailT Expr)
    (input : Chars) (defs : Defs) :
    Except ParseFailT (ParseSuccess DefImpl DefTy Expr) :=
  let loc := Location.Shell
  if "def ".data.isPrefixOf input then (definition_impl input loc defs).map .Impl
  else if "def-ty ".data.isPrefixOf input then (definition_type input loc).map .Ty
  else (expression input loc defs).map .Expr

-- ###### PROCESS MODEL ########################################################

/-- Outcome of a Rust call observed from outside: either a `panic!` with its
message, or an ordinary `Result` return value. -/
inductive Outcome (ε α : Type) where
  | panicked (msg : Chars)
  | ret (r : Except ε α)

/-- `fscache::ensure_init` (lib.rs:461-476):
`root.canonicalize().expect("must be able to canonicalize root")` panics
(returns `none` here) exactly when the OS cannot canonicalize the root path;
`canonicalize` is that OS primitive, passed as a parameter.  The
`INIT.call_once` block only spawns the two daemon threads and contributes
nothing to the returned value. -/
def ensure_init (canonicalize : Chars → Option Chars) (root : Chars) : Option Chars :=
  canonicalize root

/-- `process_expression` (lib.rs:217-243).  The pipeline stages
(`parsing::expression`, `hir::handle_help`, `hir::construct_evaluator` and the
evaluator itself, their modules outside `src/`) are modelled from the spec as
parameters: per the spec "all failures are values, not unrecoverable aborts",
each is a total function into `Except Error _`; the evaluator closes over the
context built from `root`/`wd`.  The call first runs `ensure_init`, whose
`expect` is the one panic site in this function's `src/` code. -/
def process_expression {Value Expr Defs : Type}
    (canonicalize : Chars → Option Chars)
    (expression : Chars → Location → Defs → Except Error Expr)
    (handle_help : Expr → Defs → Except Error Unit)
    (construct_evaluator : Expr → Defs → Except Error (Value → Chars → Chars → Except Error Value))
    (seed : Value) (expr : Chars) (loc : Location) (defs : Defs) (root wd : Chars) :
    Outcome Error Value :=
  match ensure_init canonicalize root with
  | none => .panicked "must be able to canonicalize root".data
  | some _ =>
    .ret (do
      let e ← expression expr loc defs
      handle_help e defs
      let ev ← construct_evaluator e defs
      ev seed root wd)

-- ###### CACHE THEOREMS #######################################################

/-- A concrete materialization instance for witnesses: `Num`-typed cache of
`Nat` values stored as themselves. -/
def matNum : Materialize Nat Nat := ⟨Ty.Num, fun n => n, fun n => some n⟩

/-- The empty cache map. -/
def emptyCache : CacheMap Nat := fun _ => none

/-- C1: Cache round-trip.  `insert(p, T, v)` binds the key `Key::from::<T>(p)`
to the freshly stamped `v.into()`; and as long as that binding is intact (no
sweep, no path invalidation, no overwriting insert), `get::<T>(p)` returns
`Some` of a value equal to `v` — given that `T`'s conversion pair round-trips,
as it does for every cached type of the closed value model. -/
theorem cache_round_trip {V α : Type} (M : Materialize V α)
    (hM : ∀ v, M.tryFromValue (M.intoValue v) = some v)
    (p : Chars) (v : α) (m m' : CacheMap V) (now now' ts : Nat) :
    FsCache.insert M p v m now (Key.fromPath M p) = some (now, M.intoValue v) ∧
    (m' (Key.fromPath M p) = some (ts, M.intoValue v) →
      (FsCache.get M p m' now').1 = some v) := by
  constructor
  · simp [FsCache.insert, CacheMap.insert]
  · intro h
    simp [FsCache.get, h, hM]

/-- Witness for C1: inserting 5 under path "A" then reading it back. -/
theorem cache_round_trip_witness :
    FsCache.insert matNum "A".data 5 emptyCache 0 (Key.fromPath matNum "A".data)
        = some (0, matNum.intoValue 5) ∧
    (FsCache.get matNum "A".data (FsCache.insert matNum "A".data 5 emptyCache 0) 1).1
        = some 5 := by
  have h := cache_round_trip matNum (fun v => rfl) "A".data 5 emptyCache
    (FsCache.insert matNum "A".data 5 emptyCache 0) 0 1 0
  exact ⟨h.1, h.2 h.1⟩

/-- C2: Path invalidation is type-blind.  After `remove_path_changes(paths)`
with `p ∈ paths`, no entry keyed by `p`'s normalized path survives under any
type `tp`, so `get::<T>(p)` misses for every `T`; entries whose normalized path
is not in the normalized set are untouched. -/
theorem remove_path_changes_type_blind {V α : Type} (M : Materialize V α) (m : CacheMap V)
    (paths : List Chars) (p q : Chars) (tp tq : Ty) (now : Nat) (hp : p ∈ paths) :
    FsCache.remove_path_changes paths m ⟨path_to_str p, tp⟩ = none ∧
    (FsCache.get M p (FsCache.remove_path_changes paths m) now).1 = none ∧
    (path_to_str q ∉ paths.map path_to_str →
      FsCache.remove_path_changes paths m ⟨path_to_str q, tq⟩ = m ⟨path_to_str q, tq⟩) := by
  have hmem : path_to_str p ∈ paths.map path_to_str := List.mem_map_of_mem _ hp
  have hne : (paths.map path_to_str).isEmpty = false := by
    cases hps : paths.map path_to_str with
    | nil => rw [hps] at hmem; cases hmem
    | cons a l => rfl
  have gone : ∀ ty : Ty, FsCache.remove_path_changes paths m ⟨path_to_str p, ty⟩ = none := by
    intro ty
    simp only [FsCache.remove_path_changes, hne, Bool.false_eq_true, if_false, CacheMap.retain]
    cases m ⟨path_to_str p, ty⟩ with
    | none => rfl
    | some v => simp [hmem]
  refine ⟨gone tp, ?_, ?_⟩
  · simp [FsCache.get, Key.fromPath, gone M.ty]
  · intro hq
    simp only [FsCache.remove_path_changes, hne, Bool.false_eq_true, if_false, CacheMap.retain]
    cases m ⟨path_to_str q, tq⟩ with
    | none => rfl
    | some v => simp [hq]

/-- A two-entry cache for witnesses: 5 under "A" and 7 under "b", both at tick
0 with type `Num`. -/
def cacheAB : CacheMap Nat :=
  FsCache.insert matNum "b".data 7 (FsCache.insert matNum "A".data 5 emptyCache 0) 0

/-- Witness for C2: invalidating path "A" removes its entry (queried under the
unrelated type `Str` and via a typed `get`), while "b"'s entry is untouched. -/
theorem remove_path_changes_type_blind_witness :
    ("A".data ∈ ["A".data]) ∧
    (path_to_str "b".data ∉ ["A".data].map path_to_str) ∧
    FsCache.remove_path_changes ["A".data] cacheAB ⟨path_to_str "A".data, Ty.Str⟩ = none ∧
    (FsCache.get matNum "A".data (FsCache.remove_path_changes ["A".data] cacheAB) 3).1 = none ∧
    FsCache.remove_path_changes ["A".data] cacheAB ⟨path_to_str "b".data, Ty.Num⟩
      = cacheAB ⟨path_to_str "b".data, Ty.Num⟩ := by
  have h := remove_path_changes_type_blind matNum cacheAB ["A".data] "A".data "b".data
    Ty.Str Ty.Num 3 (by decide)
  exact ⟨by decide, by decide, h.1, h.2.1, h.2.2 (by decide)⟩

/-- C3: TTL eviction.  After `remove_expired(age)` at tick `now`, an entry last
accessed at tick `ts` is gone when its age `now - ts` exceeds `age`, and still
present with its timestamp and value unchanged when its age is strictly within
`age`. -/
theorem remove_expired_ttl {V : Type} (m : CacheMap V) (age now ts : Nat) (k : Key) (v : V)
    (hk : m k = some (ts, v)) :
    (age < now - ts → FsCache.remove_expired age m now k = none) ∧
    (now - ts < age → FsCache.remove_expired age m now k = some (ts, v)) := by
  constructor
  · intro h
    simp only [FsCache.remove_expired, CacheMap.retain, hk]
    rw [if_neg]
    simp only [decide_eq_true_eq]
    omega
  · intro h
    simp [FsCache.remove_expired, CacheMap.retain, hk, h]

/-- Witness for C3: with one entry stamped at tick 0, a sweep at tick 3 with
lifespan 2 evicts it, and a sweep at tick 3 with lifespan 9 keeps it intact. -/
theorem remove_expired_ttl_witness :
    (2 < 3 - 0) ∧
    FsCache.remove_expired 2 (FsCache.insert matNum "A".data 5 emptyCache 0) 3
      (Key.fromPath matNum "A".data) = none ∧
    (3 - 0 < 9) ∧
    FsCache.remove_expired 9 (FsCache.insert matNum "A".data 5 emptyCache 0) 3
      (Key.fromPath matNum "A".data) = some (0, 5) := by
  have h1 := remove_expired_ttl (FsCache.insert matNum "A".data 5 emptyCache 0) 2 3 0
    (Key.fromPath matNum "A".data) 5 (by decide)
  have h2 := remove_expired_ttl (FsCache.insert matNum "A".data 5 emptyCache 0) 9 3 0
    (Key.fromPath matNum "A".data) 5 (by decide)
  exact ⟨by decide, h1.1 (by decide), by decide, h2.2 (by decide)⟩

/-- C7: Case-normalized cache keys.  If two paths have the same lowercased
display string then they address the same key: a value inserted under `p` is
returned by `get` under `q`, and `remove_path_changes` over `q` removes the
entry inserted under `p`. -/
theorem case_normalized_keys {V α : Type} (M : Materialize V α)
    (hM : ∀ v, M.tryFromValue (M.intoValue v) = some v)
    (p q : Chars) (hpq : path_to_str p = path_to_str q)
    (v : α) (m : CacheMap V) (now now' : Nat) :
    (FsCache.get M q (FsCache.insert M p v m now) now').1 = some v ∧
    FsCache.remove_path_changes [q] (FsCache.insert M p v m now) (Key.fromPath M p) = none := by
  have hkey : Key.fromPath M q = Key.fromPath M p := by simp [Key.fromPath, hpq]
  constructor
  · simp [FsCache.get, FsCache.insert, hkey, CacheMap.insert, hM]
  · simp [FsCache.remove_path_changes, CacheMap.retain, FsCache.insert, CacheMap.insert,
      Key.fromPath, hpq]

/-- Witness for C7 at the pair "A" / "a" (the conversion round-trip hypothesis
and the equal-lowercase hypothesis discharged concretely). -/
theorem case_normalized_keys_witness :
    (path_to_str "A".data = path_to_str "a".data) ∧
    (FsCache.get matNum "a".data (FsCache.insert matNum "A".data 5 emptyCache 0) 1).1
        = some 5 ∧
    FsCache.remove_path_changes ["a".data] (FsCache.insert matNum "A".data 5 emptyCache 0)
      (Key.fromPath matNum "A".data) = none := by
  have h := case_normalized_keys matNum (fun v => rfl) "A".data "a".data (by decide)
    5 emptyCache 0 1
  exact ⟨by decide, h.1, h.2⟩

/-- C8: Cache-hit frame condition.  A `get` that hits leaves the stored value
in place, rewrites only the hit entry's timestamp to the current instant,
returns the conversion of (a clone of) the stored value, and leaves every
other entry of the map untouched. -/
theorem get_hit_frame {V α : Type} (M : Materialize V α) (p : Chars) (m : CacheMap V)
    (now ts : Nat) (v : V) (hk : m (Key.fromPath M p) = some (ts, v)) :
    (FsCache.get M p m now).1 = M.tryFromValue v ∧
    (FsCache.get M p m now).2 (Key.fromPath M p) = some (now, v) ∧
    ∀ k, k ≠ Key.fromPath M p → (FsCache.get M p m now).2 k = m k := by
  refine ⟨?_, ?_, ?_⟩
  · simp [FsCache.get, hk]
  · simp [FsCache.get, hk, CacheMap.insert]
  · intro k hne
    simp [FsCache.get, hk, CacheMap.insert, hne]

/-- Witness for C8: a hit on "A"'s entry bumps exactly its timestamp and leaves
the entry of the distinct key for path "b" as it was. -/
theorem get_hit_frame_witness :
    (cacheAB (Key.fromPath matNum "A".data) = some (0, 5)) ∧
    (FsCache.get matNum "A".data cacheAB 4).1 = matNum.tryFromValue 5 ∧
    (FsCache.get matNum "A".data cacheAB 4).2 (Key.fromPath matNum "A".data)
        = some (4, 5) ∧
    (Key.fromPath matNum "b".data ≠ Key.fromPath matNum "A".data) ∧
    (FsCache.get matNum "A".data cacheAB 4).2 (Key.fromPath matNum "b".data)
        = cacheAB (Key.fromPath matNum "b".data) := by
  have h := get_hit_frame matNum "A".data cacheAB 4 0 5 (by decide)
  exact ⟨by decide, h.1, h.2.1, by decide, h.2.2 _ (by decide)⟩

-- ###### PRINTING THEOREMS ####################################################

/-- Helper for C5 (rows part): with the header flag set and more than
`ROWS_LIM` total rows, the grid is the formatted header, the first 5 data rows,
one marker row whose first cell reads "(rows_len - 10 - 1) rows elided", and
the last 5 data rows (`rest.drop (rows_len - 6)` of the `rows_len - 1` data
rows). -/
theorem print_table_limit_rows {Cell : Type} (t : DataTable Cell)
    (fmtHeader fmtCell : Cell → Chars)
    (hne : t.is_empty = false) (hh : t.header = true) (hr : t.rows_len > ROWS_LIM) :
    ∃ h rest, t.cells = h :: rest ∧
      print_table t fmtHeader fmtCell =
        .grid (some (fmt_row h (decide (t.cols_len > COLS_LIM)) t.cols_len fmtHeader true))
          ((((rest.take 5).map
              (fun r => fmt_row r (decide (t.cols_len > COLS_LIM)) t.cols_len fmtCell false)))
            ++ ((((Nat.repr (t.rows_len - 10 - 1)).data ++ " rows elided".data)
                  :: List.replicate
                    (if decide (t.cols_len > COLS_LIM) = true then 6 else t.cols_len - 1)
                    "...".data)
              :: ((rest.drop (t.rows_len - 6)).map
                  (fun r => fmt_row r (decide (t.cols_len > COLS_LIM)) t.cols_len fmtCell false)))) := by
  obtain ⟨h, rest, hcells⟩ : ∃ h rest, t.cells = h :: rest := by
    cases hc : t.cells with
    | nil => rw [DataTable.is_empty, hc] at hne; cases hne
    | cons a l => exact ⟨a, l, rfl⟩
  refine ⟨h, rest, hcells, ?_⟩
  have hlr : decide (t.rows_len > ROWS_LIM) = true := decide_eq_true hr
  unfold print_table
  rw [if_neg (by rw [hne]; exact Bool.false_ne_true)]
  simp only [hlr, hh, hcells, if_pos rfl, List.head?_cons, List.tail_cons, Option.map_some,
    List.drop_drop, if_true]
  have h6 : 5 + (t.rows_len - 11) = t.rows_len - 6 := by rw [ROWS_LIM] at hr; omega
  rw [h6]
  rfl

/-- Helper for C5 (columns part): a row of `cols_len > COLS_LIM` cells is
rendered as its first 3 cells, exactly one marker cell ("(cols_len - 6) cols
elided" in the header, "..." otherwise), then its last 3 cells. -/
theorem fmt_row_limit_cols {Cell : Type} (row : List Cell) (cols_len : Nat)
    (fmtCell : Cell → Chars) (header : Bool)
    (hc : cols_len > COLS_LIM) (hlen : row.length = cols_len) :
    (row.take 3).length = 3 ∧ (row.drop (cols_len - 3)).length = 3 ∧
    fmt_row row true cols_len fmtCell header =
      ((row.take 3).map fmtCell)
        ++ ((if header then (Nat.repr (cols_len - 6)).data ++ " cols elided".data
              else "...".data)
          :: ((row.drop (cols_len - 3)).map fmtCell)) := by
  rw [COLS_LIM] at hc
  refine ⟨by simp [hlen]; omega, by simp [hlen]; omega, ?_⟩
  unfold fmt_row
  simp only [if_pos rfl, List.drop_drop, if_true]
  have h3 : 3 + (cols_len - 6) = cols_len - 3 := by omega
  rw [h3]

/-- Helper for C5 (within-limits part): a non-empty table within both limits is
rendered in full — every data row appears with every cell formatted, the first
row becoming the header exactly when the header flag is set. -/
theorem print_table_within_limits {Cell : Type} (t : DataTable Cell)
    (fmtHeader fmtCell : Cell → Chars)
    (hne : t.is_empty = false) (hnr : ¬ t.rows_len > ROWS_LIM) (hnc : ¬ t.cols_len > COLS_LIM)
    (hU : ∀ r ∈ t.cells, r.length = t.cols_len) :
    (t.header = true → ∃ h rest, t.cells = h :: rest ∧
      print_table t fmtHeader fmtCell =
        .grid (some (h.map fmtHeader)) (rest.map (fun r => r.map fmtCell))) ∧
    (t.header = false →
      print_table t fmtHeader fmtCell =
        .grid none (t.cells.map (fun r => r.map fmtCell))) := by
  have hlr : decide (t.rows_len > ROWS_LIM) = false := decide_eq_false hnr
  have hlc : decide (t.cols_len > COLS_LIM) = false := decide_eq_false hnc
  have hfull : ∀ r ∈ t.cells, ∀ f : Cell → Chars, fmt_row r false t.cols_len f false = r.map f ∧
      fmt_row r false t.cols_len f true = r.map f := by
    intro r hr f
    unfold fmt_row
    simp only [Bool.false_eq_true, if_false]
    rw [List.take_of_length_le (le_of_eq (hU r hr))]
    exact ⟨rfl, rfl⟩
  constructor
  · intro hh
    obtain ⟨h, rest, hcells⟩ : ∃ h rest, t.cells = h :: rest := by
      cases hc : t.cells with
      | nil => rw [DataTable.is_empty, hc] at hne; cases hne
      | cons a l => exact ⟨a, l, rfl⟩
    refine ⟨h, rest, hcells, ?_⟩
    unfold print_table
    rw [if_neg (by rw [hne]; exact Bool.false_ne_true)]
    simp only [hlr, hlc, hh, hcells, if_pos rfl, List.head?_cons, List.tail_cons,
      Bool.false_eq_true, if_false, if_true, Option.map_some']
    rw [List.take_of_length_le (by simp [DataTable.rows_len, hcells])]
    rw [(hfull h (by rw [hcells]; exact List.mem_cons_self _ _) fmtHeader).2]
    congr 1
    apply List.map_congr_left
    intro r hrmem
    exact (hfull r (by rw [hcells]; exact List.mem_cons_of_mem _ hrmem) fmtCell).1
  · intro hh
    unfold print_table
    rw [if_neg (by rw [hne]; exact Bool.false_ne_true)]
    simp only [hlr, hlc, hh, Bool.false_eq_true, if_false]
    rw [List.take_of_length_le (show t.cells.length ≤ t.rows_len from Nat.le_refl _)]
    apply congrArg
    apply List.map_congr_left
    intro r hrmem
    exact (hfull r hrmem fmtCell).1

/-- C5: Table elision policy.  (1) A non-empty table with a header and more
than `ROWS_LIM` (= 30) total rows renders the header, the first 5 data rows,
exactly one marker row reading "(rows_len - 10 - 1) rows elided", then the
last 5 data rows.  (2) A row of more than `COLS_LIM` (= 7) cells keeps its
first 3 and last 3 cells around exactly one elision marker cell ("(cols_len
- 6) cols elided" in the header row, "..." in data rows).  (3) A table within
both limits renders in full. -/
theorem print_table_elision_policy :
    (∀ (Cell : Type) (t : DataTable Cell) (fmtHeader fmtCell : Cell → Chars),
      t.is_empty = false → t.header = true → t.rows_len > ROWS_LIM →
      ∃ h rest, t.cells = h :: rest ∧
        print_table t fmtHeader fmtCell =
          .grid (some (fmt_row h (decide (t.cols_len > COLS_LIM)) t.cols_len fmtHeader true))
            ((((rest.take 5).map
                (fun r => fmt_row r (decide (t.cols_len > COLS_LIM)) t.cols_len fmtCell false)))
              ++ ((((Nat.repr (t.rows_len - 10 - 1)).data ++ " rows elided".data)
                    :: List.replicate
                      (if decide (t.cols_len > COLS_LIM) = true then 6 else t.cols_len - 1)
                      "...".data)
                :: ((rest.drop (t.rows_len - 6)).map
                    (fun r => fmt_row r (decide (t.cols_len > COLS_LIM)) t.cols_len fmtCell false))))) ∧
    (∀ (Cell : Type) (row : List Cell) (cols_len : Nat) (fmtCell : Cell → Chars) (header : Bool),
      cols_len > COLS_LIM → row.length = cols_len →
      (row.take 3).length = 3 ∧ (row.drop (cols_len - 3)).length = 3 ∧
      fmt_row row true cols_len fmtCell header =
        ((row.take 3).map fmtCell)
          ++ ((if header then (Nat.repr (cols_len - 6)).data ++ " cols elided".data
                else "...".data)
            :: ((row.drop (cols_len - 3)).map fmtCell))) ∧
    (∀ (Cell : Type) (t : DataTable Cell) (fmtHeader fmtCell : Cell → Chars),
      t.is_empty = false → ¬ t.rows_len > ROWS_LIM → ¬ t.cols_len > COLS_LIM →
      (∀ r ∈ t.cells, r.length = t.cols_len) →
      (t.header = true → ∃ h rest, t.cells = h :: rest ∧
        print_table t fmtHeader fmtCell =
          .grid (some (h.map fmtHeader)) (rest.map (fun r => r.map fmtCell))) ∧
      (t.header = false →
        print_table t fmtHeader fmtCell =
          .grid none (t.cells.map (fun r => r.map fmtCell)))) :=
  ⟨fun _ t fH fC hne hh hr => print_table_limit_rows t fH fC hne hh hr,
   fun _ row c f hd hc hl => fmt_row_limit_cols row c f hd hc hl,
   fun _ t fH fC hne hnr hnc hU => print_table_within_limits t fH fC hne hnr hnc hU⟩

/-- A 40-row, 1-column, headered table of unit cells, for the C5 witness. -/
def tblA : DataTable Unit := ⟨1, List.replicate 40 [()], true⟩

/-- A 3-row, 2-column, headered table of unit cells, for the C5 witness. -/
def tblC : DataTable Unit := ⟨2, [[(), ()], [(), ()], [(), ()]], true⟩

/-- Header-cell formatter used by witnesses. -/
def fmtH : Unit → Chars := fun _ => "h".data

/-- Data-cell formatter used by witnesses. -/
def fmtX : Unit → Chars := fun _ => "x".data

/-- Witness for C5: the three parts applied to a 40x1 headered table, an
8-cell row, and a 3x2 headered table, each hypothesis discharged concretely. -/
theorem print_table_elision_policy_witness :
    (tblA.is_empty = false ∧ tblA.header = true ∧ tblA.rows_len > ROWS_LIM ∧
      (∃ h rest, tblA.cells = h :: rest ∧
        print_table tblA fmtH fmtX =
          .grid (some (fmt_row h (decide (tblA.cols_len > COLS_LIM)) tblA.cols_len fmtH true))
            ((((rest.take 5).map
                (fun r => fmt_row r (decide (tblA.cols_len > COLS_LIM)) tblA.cols_len fmtX false)))
              ++ ((((Nat.repr (tblA.rows_len - 10 - 1)).data ++ " rows elided".data)
                    :: List.replicate
                      (if decide (tblA.cols_len > COLS_LIM) = true then 6 else tblA.cols_len - 1)
                      "...".data)
                :: ((rest.drop (tblA.rows_len - 6)).map
                    (fun r => fmt_row r (decide (tblA.cols_len > COLS_LIM)) tblA.cols_len fmtX false)))))) ∧
    ((8 : Nat) > COLS_LIM ∧ (List.replicate 8 ()).length = 8 ∧
      ((List.replicate 8 ()).take 3).length = 3 ∧
      ((List.replicate 8 ()).drop (8 - 3)).length = 3 ∧
      fmt_row (List.replicate 8 ()) true 8 fmtX true =
        (((List.replicate 8 ()).take 3).map fmtX)
          ++ ((if true then (Nat.repr (8 - 6)).data ++ " cols elided".data else "...".data)
            :: (((List.replicate 8 ()).drop (8 - 3)).map fmtX))) ∧
    (tblC.is_empty = false ∧ (¬ tblC.rows_len > ROWS_LIM) ∧ (¬ tblC.cols_len > COLS_LIM) ∧
      (∀ r ∈ tblC.cells, r.length = tblC.cols_len) ∧ tblC.header = true ∧
      (∃ h rest, tblC.cells = h :: rest ∧
        print_table tblC fmtH fmtX =
          .grid (some (h.map fmtH)) (rest.map (fun r => r.map fmtX)))) := by
  have hB := print_table_elision_policy.2.1 Unit (List.replicate 8 ()) 8 fmtX true
    (by decide) (by decide)
  refine ⟨⟨by decide, rfl, by decide, ?_⟩, ⟨by decide, by decide, hB.1, hB.2.1, hB.2.2⟩,
    ⟨by decide, by decide, by decide, by decide, rfl, ?_⟩⟩
  · exact print_table_elision_policy.1 Unit tblA fmtH fmtX (by decide) rfl (by decide)
  · exact (print_table_elision_policy.2.2 Unit tblC fmtH fmtX (by decide) (by decide)
      (by decide) (by decide)).1 rfl

/-- C10: printing a table for which `is_empty()` holds writes exactly the
single (coloured) "table is empty" line — no grid, header or elision markers,
whatever the header flag says. -/
theorem print_table_empty {Cell : Type} (t : DataTable Cell) (fmtHeader fmtCell : Cell → Chars)
    (h : t.is_empty = true) :
    print_table t fmtHeader fmtCell = .msg "table is empty".data := by
  simp [print_table, h]

/-- Witness for C10: a zero-row table with the header flag set. -/
theorem print_table_empty_witness :
    ((⟨3, [], true⟩ : DataTable Unit).is_empty = true) ∧
    print_table (⟨3, [], true⟩ : DataTable Unit) fmtH fmtX = .msg "table is empty".data :=
  ⟨rfl, print_table_empty _ _ _ rfl⟩

-- ###### PARSE THEOREMS #######################################################

/-- A string starting with `"def-ty "` does not start with `"def "`: both would
be prefixes of the same string but the shorter is not a prefix of the longer
(dash versus space at the fourth character). -/
theorem not_def_prefix_of_defty {input : Chars} (h : "def-ty ".data.isPrefixOf input = true) :
    "def ".data.isPrefixOf input = false := by
  cases hb : "def ".data.isPrefixOf input with
  | false => rfl
  | true =>
    exfalso
    rw [List.isPrefixOf_iff_prefix] at h hb
    have h2 := List.prefix_of_prefix_length_le hb h (by decide)
    revert h2
    decide

/-- C6: Parse dispatch.  `parse` routes an input starting with "def " to
command-definition parsing, an input starting with "def-ty " to
type-definition parsing (such an input never starts with "def ", so the three
cases are exact), and anything else to expression parsing — each at
`Location::Shell`. -/
theorem parse_dispatch {Defs DefImpl DefTy Expr ParseFailT : Type}
    (definition_impl : Chars → Location → Defs → Except ParseFailT DefImpl)
    (definition_type : Chars → Location → Except ParseFailT DefTy)
    (expression : Chars → Location → Defs → Except ParseFailT Expr)
    (input : Chars) (defs : Defs) :
    ("def ".data.isPrefixOf input = true →
      parse definition_impl definition_type expression input defs
        = (definition_impl input Location.Shell defs).map ParseSuccess.Impl) ∧
    ("def-ty ".data.isPrefixOf input = true →
      parse definition_impl definition_type expression input defs
        = (definition_type input Location.Shell).map ParseSuccess.Ty) ∧
    ("def ".data.isPrefixOf input = false → "def-ty ".data.isPrefixOf input = false →
      parse definition_impl definition_type expression input defs
        = (expression input Location.Shell defs).map ParseSuccess.Expr) := by
  refine ⟨?_, ?_, ?_⟩
  · intro h
    simp [parse, h]
  · intro h
    simp [parse, h, not_def_prefix_of_defty h]
  · intro h1 h2
    simp [parse, h1, h2]

/-- Concrete stand-in for `parsing::definition_impl` in the C6 witness. -/
def implFn : Chars → Location → Unit → Except Unit Chars := fun i _ _ => Except.ok i

/-- Concrete stand-in for `parsing::definition_type` in the C6 witness. -/
def typeFn : Chars → Location → Except Unit Chars := fun i _ => Except.ok i

/-- Concrete stand-in for `parsing::expression` in the C6 witness. -/
def exprFn : Chars → Location → Unit → Except Unit Chars := fun i _ _ => Except.ok i

/-- Witness for C6 on the inputs "def x", "def-ty y" and "ls". -/
theorem parse_dispatch_witness :
    ("def ".data.isPrefixOf "def x".data = true ∧
      parse implFn typeFn exprFn "def x".data ()
        = (implFn "def x".data Location.Shell ()).map ParseSuccess.Impl) ∧
    ("def-ty ".data.isPrefixOf "def-ty y".data = true ∧
      parse implFn typeFn exprFn "def-ty y".data ()
        = (typeFn "def-ty y".data Location.Shell).map ParseSuccess.Ty) ∧
    ("def ".data.isPrefixOf "ls".data = false ∧ "def-ty ".data.isPrefixOf "ls".data = false ∧
      parse implFn typeFn exprFn "ls".data ()
        = (exprFn "ls".data Location.Shell ()).map ParseSuccess.Expr) :=
  ⟨⟨by decide, (parse_dispatch implFn typeFn exprFn "def x".data ()).1 (by decide)⟩,
   ⟨by decide, (parse_dispatch implFn typeFn exprFn "def-ty y".data ()).2.1 (by decide)⟩,
   ⟨by decide, by decide,
    (parse_dispatch implFn typeFn exprFn "ls".data ()).2.2 (by decide) (by decide)⟩⟩

-- ###### PROCESS THEOREMS #####################################################

/-- An OS in which no path canonicalizes, for the C4 counterexample. -/
def canonNone : Chars → Option Chars := fun _ => none

/-- An OS in which every path canonicalizes to itself, for the C4 witness. -/
def canonSome : Chars → Option Chars := fun p => some p

/-- Trivial expression-parsing stage for C4. -/
def exprFnU : Chars → Location → Unit → Except Error Unit := fun _ _ _ => Except.ok ()

/-- Trivial help-handling stage for C4. -/
def helpFnU : Unit → Unit → Except Error Unit := fun _ _ => Except.ok ()

/-- Trivial evaluator-construction stage for C4. -/
def evalFnU : Unit → Unit → Except Error (Unit → Chars → Chars → Except Error Unit) :=
  fun _ _ => Except.ok (fun _ _ _ => Except.ok ())

/-- C4 counterexample: with a root path that cannot be canonicalized,
`process_expression` does not return a value — it panics in `ensure_init`'s
`expect("must be able to canonicalize root")` (lib.rs:462-464), refuting the
claim for that input. -/
theorem process_expression_panic_cex :
    process_expression canonNone exprFnU helpFnU evalFnU () "ls".data Location.Shell ()
      "/r".data "/r".data
      = Outcome.panicked "must be able to canonicalize root".data := rfl

/-- C4 (amended): whenever the root path can be canonicalized,
`process_expression` returns `Ok(Value)` or `Err(Error)` as a value and never
panics — each pipeline stage only ever fails by returning an `Error` value. -/
theorem process_expression_no_panic {Value Expr Defs : Type}
    (canonicalize : Chars → Option Chars)
    (expression : Chars → Location → Defs → Except Error Expr)
    (handle_help : Expr → Defs → Except Error Unit)
    (construct_evaluator : Expr → Defs → Except Error (Value → Chars → Chars → Except Error Value))
    (seed : Value) (expr : Chars) (loc : Location) (defs : Defs) (root wd : Chars)
    (h : (canonicalize root).isSome = true) :
    ∃ r, process_expression canonicalize expression handle_help construct_evaluator
        seed expr loc defs root wd = Outcome.ret r := by
  unfold process_expression ensure_init
  cases hc : canonicalize root with
  | none => rw [hc] at h; cases h
  | some c => exact ⟨_, rfl⟩

/-- Witness for C4's amended claim under the always-canonicalizing OS. -/
theorem process_expression_no_panic_witness :
    ((canonSome "/r".data).isSome = true) ∧
    ∃ r, process_expression canonSome exprFnU helpFnU evalFnU () "ls".data Location.Shell ()
        "/r".data "/r".data = Outcome.ret r :=
  ⟨rfl, process_expression_no_panic canonSome exprFnU helpFnU evalFnU () "ls".data
    Location.Shell () "/r".data "/r".data rfl⟩

-- ###### HELP THEOREMS ########################################################

/-- The text `help_as_error`'s parameter loop appends for one parameter: a
`Break` contributes a fresh " => cmd" usage line (plus the space), a written
parameter contributes the (space and) rendered parameter. -/
def paramSeg (cmd : Chars) (ns : Bool) : HelpParameter → Chars
  | .Break => "\n => ".data ++ cmd ++ (if !ns then " ".data else [])
  | .Required p => (if !ns then " ".data else []) ++ p
  | .Custom p => (if !ns then " ".data else []) ++ p
  | .Optional p => (if !ns then " ".data else []) ++ ("[".data ++ p ++ "]".data)

/-- One parameter step never panics and appends exactly its segment. -/
theorem paramStep_eq (cmd : Chars) (ns : Bool) (acc : Chars) (p : HelpParameter) :
    paramStep cmd ns (some acc) p = some (acc ++ paramSeg cmd ns p) := by
  cases p <;> cases ns <;>
    simp [paramStep, paramSeg, HelpParameter.write, List.append_assoc]

/-- The whole parameter loop never panics and appends the parameter segments in
order. -/
theorem paramsFold_eq (cmd : Chars) (ns : Bool) (ps : List HelpParameter) (acc : Chars) :
    ps.foldl (paramStep cmd ns) (some acc)
      = some (acc ++ (ps.map (paramSeg cmd ns)).flatten) := by
  induction ps generalizing acc with
  | nil => simp
  | cons p ps ih =>
    rw [List.foldl_cons, paramStep_eq, ih]
    simp [List.append_assoc]

/-- The text the flags loop appends for one flag. -/
def flagSeg (nd : Chars × Chars) : Chars := "\n --".data ++ nd.1 ++ ": ".data ++ nd.2

/-- The flags loop appends the flag segments in order. -/
theorem flagsFold_eq (flags : List (Chars × Chars)) (acc : Chars) :
    flags.foldl (fun acc nd => acc ++ "\n --".data ++ nd.1 ++ ": ".data ++ nd.2) acc
      = acc ++ (flags.map flagSeg).flatten := by
  induction flags generalizing acc with
  | nil => simp
  | cons f fs ih =>
    rw [List.foldl_cons, ih]
    simp [flagSeg, List.append_assoc]

/-- The text the examples loop appends for one example. -/
def exSeg (ex : HelpExample) : Chars :=
  "\n ".data ++ ex.desc ++ "\n => ".data ++ ex.code ++ "\n".data

/-- The examples loop appends the example segments in order. -/
theorem exsFold_eq (exs : List HelpExample) (acc : Chars) :
    exs.foldl (fun acc ex => acc ++ "\n ".data ++ ex.desc ++ "\n => ".data ++ ex.code ++ "\n".data)
      acc = acc ++ (exs.map exSeg).flatten := by
  induction exs generalizing acc with
  | nil => simp
  | cons e es ih =>
    rw [List.foldl_cons, ih]
    simp [exSeg, List.append_assoc]

/-- The complete trace source text `help_as_error` builds: description, usage
line(s) with the parameters, then the optional flags and examples sections. -/
def helpSource (msg : HelpMessage) : Chars :=
  msg.desc ++ "\n\nUsage:\n => ".data ++ msg.cmd
    ++ (msg.params.map (paramSeg msg.cmd msg.no_space)).flatten
    ++ (if msg.flags.isEmpty then [] else "\n\nFlags:".data ++ (msg.flags.map flagSeg).flatten)
    ++ (if msg.examples.isEmpty then []
        else "\n\nExamples:".data ++ (msg.examples.map exSeg).flatten)

/-- `help_as_error` never hits the `Break` panic and produces exactly the
single-trace Help error with source `helpSource`. -/
theorem help_as_error_eq (msg : HelpMessage) :
    help_as_error msg = some
      { cat := Category.Help
        desc := "`".data ++ msg.cmd ++ "`".data
        help_msg := none
        traces := [{ loc := Location.Shell, source := helpSource msg,
                     desc := none, start := 0, len := 0 }] } := by
  unfold help_as_error
  cases hf : msg.flags.isEmpty <;> cases he : msg.examples.isEmpty
  all_goals
    simp only [paramsFold_eq, Option.map_some', hf, he, Bool.false_eq_true, if_false, if_true,
      Option.some.injEq, flagsFold_eq, exsFold_eq]
  all_goals simp [helpSource, hf, he, List.append_assoc]

/-- An infix of the left half of an append is an infix of the append. -/
theorem infix_append_right {l l₁ : Chars} (l₂ : Chars) (h : l <:+: l₁) : l <:+: l₁ ++ l₂ :=
  h.trans (List.prefix_append _ _).isInfix

/-- An infix of the right half of an append is an infix of the append. -/
theorem infix_append_left {l l₂ : Chars} (l₁ : Chars) (h : l <:+: l₂) : l <:+: l₁ ++ l₂ :=
  h.trans (List.suffix_append _ _).isInfix

/-- Each member's segment occurs in the concatenation of all segments. -/
theorem seg_infix_flatten {α : Type} (seg : α → Chars) {x : α} {xs : List α} (hx : x ∈ xs) :
    seg x <:+: (xs.map seg).flatten := by
  induction xs with
  | nil => cases hx
  | cons a l ih =>
    rw [List.map_cons, List.flatten_cons]
    rcases List.mem_cons.mp hx with h | h
    · subst h
      exact infix_append_right _ (List.infix_refl _)
    · exact infix_append_left _ (ih h)

/-- The description opens the trace source. -/
theorem desc_infix_helpSource (msg : HelpMessage) : msg.desc <:+: helpSource msg := by
  unfold helpSource
  exact infix_append_right _ (infix_append_right _ (infix_append_right _
    (infix_append_right _ (List.prefix_append _ _).isInfix)))

/-- The usage line with the command name occurs in the trace source. -/
theorem usage_infix_helpSource (msg : HelpMessage) :
    ("\nUsage:\n => ".data ++ msg.cmd) <:+: helpSource msg := by
  unfold helpSource
  refine infix_append_right _ (infix_append_right _ (infix_append_right _ ?_))
  have h1 : msg.desc ++ "\n\nUsage:\n => ".data ++ msg.cmd
      = (msg.desc ++ "\n".data) ++ ("\nUsage:\n => ".data ++ msg.cmd) := by
    have h2 : "\n\nUsage:\n => ".data = "\n".data ++ "\nUsage:\n => ".data := rfl
    rw [h2]
    simp [List.append_assoc]
  rw [h1]
  exact (List.suffix_append _ _).isInfix

/-- Each flag's rendered line occurs in the trace source. -/
theorem flag_infix_helpSource {msg : HelpMessage} {fl : Chars × Chars} (hfl : fl ∈ msg.flags) :
    flagSeg fl <:+: helpSource msg := by
  have hne : msg.flags.isEmpty = false := by
    cases hl : msg.flags with
    | nil => rw [hl] at hfl; cases hfl
    | cons a l => rfl
  unfold helpSource
  rw [hne]
  simp only [Bool.false_eq_true, if_false]
  exact infix_append_right _ (infix_append_left _ (infix_append_left _
    (seg_infix_flatten flagSeg hfl)))

/-- Each example's rendered block occurs in the trace source. -/
theorem ex_infix_helpSource {msg : HelpMessage} {ex : HelpExample} (hex : ex ∈ msg.examples) :
    exSeg ex <:+: helpSource msg := by
  have hne : msg.examples.isEmpty = false := by
    cases hl : msg.examples with
    | nil => rw [hl] at hex; cases hex
    | cons a l => rfl
  unfold helpSource
  rw [hne]
  simp only [Bool.false_eq_true, if_false]
  exact infix_append_left _ (infix_append_left _ (seg_infix_flatten exSeg hex))

/-- C9: Help conversion totality.  For every `HelpMessage` — `Break` parameters
included, since the parameter loop only ever calls `write` on non-`Break`
parameters — `help_as_error` returns (never panics) an error of category Help,
description the backquoted command name, no help text, and exactly one trace
whose source contains the description and the usage line; and that trace's
source contains the rendered line of every flag and the rendered block of
every example of the message. -/
theorem help_conversion :
    (∀ msg : HelpMessage, ∃ e tr, help_as_error msg = some e ∧ e.cat = Category.Help ∧
      e.desc = "`".data ++ msg.cmd ++ "`".data ∧ e.help_msg = none ∧ e.traces = [tr] ∧
      msg.desc <:+: tr.source ∧ ("\nUsage:\n => ".data ++ msg.cmd) <:+: tr.source) ∧
    (∀ (msg : HelpMessage) (fl : Chars × Chars), fl ∈ msg.flags →
      ∃ e tr, help_as_error msg = some e ∧ e.traces = [tr] ∧
        ("\n --".data ++ fl.1 ++ ": ".data ++ fl.2) <:+: tr.source) ∧
    (∀ (msg : HelpMessage) (ex : HelpExample), ex ∈ msg.examples →
      ∃ e tr, help_as_error msg = some e ∧ e.traces = [tr] ∧
        ("\n ".data ++ ex.desc ++ "\n => ".data ++ ex.code ++ "\n".data) <:+: tr.source) := by
  refine ⟨?_, ?_, ?_⟩
  · intro msg
    exact ⟨_, _, help_as_error_eq msg, rfl, rfl, rfl, rfl,
      desc_infix_helpSource msg, usage_infix_helpSource msg⟩
  · intro msg fl hfl
    exact ⟨_, _, help_as_error_eq msg, rfl, flag_infix_helpSource hfl⟩
  · intro msg ex hex
    exact ⟨_, _, help_as_error_eq msg, rfl, ex_infix_helpSource hex⟩

/-- A help message exercising every feature for the C9 witness: a `Break`
parameter, one flag and one example. -/
def helpMsgW : HelpMessage :=
  { cmd := "cmd".data
    desc := "a command".data
    params := [HelpParameter.Required "a".data, HelpParameter.Break,
               HelpParameter.Optional "b".data]
    no_space := false
    flags := [("flag".data, "toggles".data)]
    examples := [{ desc := "run it".data, code := "cmd 1".data }] }

/-- Witness for C9: the flag membership and the example membership hypotheses
discharged independently on `helpMsgW`. -/
theorem help_conversion_witness :
    (("flag".data, "toggles".data) ∈ helpMsgW.flags) ∧
    ((⟨"run it".data, "cmd 1".data⟩ : HelpExample) ∈ helpMsgW.examples) ∧
    (∃ e tr, help_as_error helpMsgW = some e ∧ e.traces = [tr] ∧
      ("\n --".data ++ ("flag".data, "toggles".data).1 ++ ": ".data
          ++ ("flag".data, "toggles".data).2) <:+: tr.source) ∧
    (∃ e tr, help_as_error helpMsgW = some e ∧ e.traces = [tr] ∧
      ("\n ".data ++ (⟨"run it".data, "cmd 1".data⟩ : HelpExample).desc ++ "\n => ".data
          ++ (⟨"run it".data, "cmd 1".data⟩ : HelpExample).code ++ "\n".data) <:+: tr.source) :=
  ⟨by decide, by decide,
   help_conversion.2.1 helpMsgW ("flag".data, "toggles".data) (by decide),
   help_conversion.2.2 helpMsgW ⟨"run it".data, "cmd 1".data⟩ (by decide)⟩
